import Mathlib

/-!
Shallow embedding of the trajectory-correction and point-transformation core of
the `rosbag_to_las` converter (source file `bag2las_transform.py`), together
with theorems checking the natural-language specification against it.

Python floats are modelled as real numbers; numpy arrays as Lean lists,
functions, or Mathlib matrices.  Effectful behaviour is modelled explicitly:
functions that print warnings return the warning list, functions that may
return the `(None, None)` sentinel return an `Option`, and the one function
that may raise (`apply_transform_to_points`) returns an `Except`.
-/

noncomputable section

namespace Bag2Las

/-- A 3-vector (a row of an `Nx3` numpy array). -/
structure Vec3 where
  x : ℝ
  y : ℝ
  z : ℝ

/-- A quaternion in the source's `[x, y, z, w]` component order. -/
structure Quat where
  x : ℝ
  y : ℝ
  z : ℝ
  w : ℝ

/-- `np.dot(q1, q2)` for 4-component quaternion arrays. -/
def quatDot (a b : Quat) : ℝ := a.x * b.x + a.y * b.y + a.z * b.z + a.w * b.w

/-- `np.linalg.norm(q)` for a quaternion array. -/
def quatNorm (q : Quat) : ℝ := Real.sqrt (quatDot q q)

/-- Componentwise `q1 + q2`. -/
def quatAdd (a b : Quat) : Quat := ⟨a.x + b.x, a.y + b.y, a.z + b.z, a.w + b.w⟩

/-- Componentwise `q1 - q2`. -/
def quatSub (a b : Quat) : Quat := ⟨a.x - b.x, a.y - b.y, a.z - b.z, a.w - b.w⟩

/-- Scalar multiple `c * q`. -/
def quatSmul (c : ℝ) (q : Quat) : Quat := ⟨c * q.x, c * q.y, c * q.z, c * q.w⟩

/-- Componentwise negation `-q`. -/
def quatNeg (q : Quat) : Quat := ⟨-q.x, -q.y, -q.z, -q.w⟩

/-- `q / np.linalg.norm(q)`. -/
def quatNormalize (q : Quat) : Quat :=
  ⟨q.x / quatNorm q, q.y / quatNorm q, q.z / quatNorm q, q.w / quatNorm q⟩

/-- `slerp_quaternions(q1, q2, t)` (bag2las_transform.py:22-67): normalize the
inputs, flip `q2` when the dot product is negative, use linear interpolation
plus renormalization when `dot > 0.9995`, otherwise the closed-form weights
`s0 = cos(theta) - dot*sin(theta)/sin(theta_0)` and
`s1 = sin(theta)/sin(theta_0)` with `theta_0 = arccos(|dot|)`, `theta = theta_0*t`. -/
def slerp_quaternions (q1 q2 : Quat) (t : ℝ) : Quat :=
  let q1n := quatNormalize q1
  let q2n := quatNormalize q2
  let dot0 := quatDot q1n q2n
  let q2f := if dot0 < 0 then quatNeg q2n else q2n
  let dot := if dot0 < 0 then -dot0 else dot0
  if dot > 0.9995 then
    let result := quatAdd q1n (quatSmul t (quatSub q2f q1n))
    quatNormalize result
  else
    let theta0 := Real.arccos |dot|
    let sinTheta0 := Real.sin theta0
    let theta := theta0 * t
    let sinTheta := Real.sin theta
    let s0 := Real.cos theta - dot * sinTheta / sinTheta0
    let s1 := sinTheta / sinTheta0
    quatAdd (quatSmul s0 q1n) (quatSmul s1 q2f)

/-- `quaternion_to_rotation_matrix(q)` (bag2las_transform.py:69-93): normalize
the quaternion when its norm is positive, then the standard formula. -/
def quaternion_to_rotation_matrix (q : Quat) : Matrix (Fin 3) (Fin 3) ℝ :=
  let n := Real.sqrt (q.x * q.x + q.y * q.y + q.z * q.z + q.w * q.w)
  let p : Quat := if n > 0 then ⟨q.x / n, q.y / n, q.z / n, q.w / n⟩ else q
  !![1 - 2 * (p.y * p.y + p.z * p.z), 2 * (p.x * p.y - p.z * p.w), 2 * (p.x * p.z + p.y * p.w);
     2 * (p.x * p.y + p.z * p.w), 1 - 2 * (p.x * p.x + p.z * p.z), 2 * (p.y * p.z - p.x * p.w);
     2 * (p.x * p.z - p.y * p.w), 2 * (p.y * p.z + p.x * p.w), 1 - 2 * (p.x * p.x + p.y * p.y)]

/-- Assemble a 4×4 homogeneous matrix from a 3×3 rotation block and a
translation column (`np.eye(4)` with `[:3,:3]` and `[:3,3]` assigned). -/
def homogeneousMatrix (R : Matrix (Fin 3) (Fin 3) ℝ) (t : Vec3) : Matrix (Fin 4) (Fin 4) ℝ :=
  !![R 0 0, R 0 1, R 0 2, t.x;
     R 1 0, R 1 1, R 1 2, t.y;
     R 2 0, R 2 1, R 2 2, t.z;
     0, 0, 0, 1]

/-- The explicit Euler-offset rotation matrix written out at
bag2las_transform.py:128-132 (the code comments call it the "ZYX convention"). -/
def eulerRotationCode (rx ry rz : ℝ) : Matrix (Fin 3) (Fin 3) ℝ :=
  let cos_rx := Real.cos rx; let sin_rx := Real.sin rx
  let cos_ry := Real.cos ry; let sin_ry := Real.sin ry
  let cos_rz := Real.cos rz; let sin_rz := Real.sin rz
  !![cos_ry * cos_rz, -(cos_ry * sin_rz), sin_ry;
     sin_rx * sin_ry * cos_rz + cos_rx * sin_rz, -(sin_rx * sin_ry * sin_rz) + cos_rx * cos_rz, -(sin_rx * cos_ry);
     -(cos_rx * sin_ry * cos_rz) + sin_rx * sin_rz, cos_rx * sin_ry * sin_rz + sin_rx * cos_rz, cos_rx * cos_ry]

/-- A lidar-mount offset: a translation, optionally followed by Euler angles
(models the source's length-3 vs length-6 `lidar_offset` argument). -/
def LidarOffset := Vec3 × Option (ℝ × ℝ × ℝ)

/-- `create_transform_matrix(position, quaternion, lidar_offset)`
(bag2las_transform.py:95-144): pose matrix from quaternion rotation and
position translation; when an offset is given, right-multiply by the offset
matrix (rotation `eulerRotationCode` when angles are present, identity
otherwise). -/
def create_transform_matrix (position : Vec3) (quaternion : Quat)
    (lidar_offset : Option LidarOffset) : Matrix (Fin 4) (Fin 4) ℝ :=
  let T := homogeneousMatrix (quaternion_to_rotation_matrix quaternion) position
  match lidar_offset with
  | none => T
  | some (tr, rot) =>
    let R_lidar : Matrix (Fin 3) (Fin 3) ℝ :=
      match rot with
      | some (rx, ry, rz) => eulerRotationCode rx ry rz
      | none => 1
    T * homogeneousMatrix R_lidar tr

/-- Standard basic rotation about the x-axis (used to state the spec's
"ZYX-convention Euler rotation Rz(rz)·Ry(ry)·Rx(rx)"). -/
def rotX (a : ℝ) : Matrix (Fin 3) (Fin 3) ℝ :=
  !![1, 0, 0;
     0, Real.cos a, -Real.sin a;
     0, Real.sin a, Real.cos a]

/-- Standard basic rotation about the y-axis. -/
def rotY (a : ℝ) : Matrix (Fin 3) (Fin 3) ℝ :=
  !![Real.cos a, 0, Real.sin a;
     0, 1, 0;
     -Real.sin a, 0, Real.cos a]

/-- Standard basic rotation about the z-axis. -/
def rotZ (a : ℝ) : Matrix (Fin 3) (Fin 3) ℝ :=
  !![Real.cos a, -Real.sin a, 0;
     Real.sin a, Real.cos a, 0;
     0, 0, 1]

/-- Modelled from the spec's words for claim C1 (refinement comparison only):
an offset transform "whose translation is (tx,ty,tz) and whose 3x3 rotation
block equals the ZYX-convention Euler rotation Rz(rz)·Ry(ry)·Rx(rx)". -/
def offsetTransformSpec (tx ty tz rx ry rz : ℝ) : Matrix (Fin 4) (Fin 4) ℝ :=
  homogeneousMatrix (rotZ rz * rotY ry * rotX rx) ⟨tx, ty, tz⟩

/-- The action of a 4×4 homogeneous matrix on one 3-D point: append a
homogeneous 1, multiply, keep the first three coordinates
(bag2las_transform.py:170-179, specialized to a single row). -/
def applyMat4 (T : Matrix (Fin 4) (Fin 4) ℝ) (p : Vec3) : Vec3 :=
  ⟨T 0 0 * p.x + T 0 1 * p.y + T 0 2 * p.z + T 0 3,
   T 1 0 * p.x + T 1 1 * p.y + T 1 2 * p.z + T 1 3,
   T 2 0 * p.x + T 2 1 * p.y + T 2 2 * p.z + T 2 3⟩

/-- A 2-D numpy array of floats: a shape plus an entry function (entries
outside the shape are irrelevant). -/
structure Arr2 where
  rows : ℕ
  cols : ℕ
  entry : ℕ → ℕ → ℝ

/-- `np.linalg.det` of the upper-left 3×3 block of a 4×4 array. -/
def det3OfArr (T : Arr2) : ℝ :=
  T.entry 0 0 * (T.entry 1 1 * T.entry 2 2 - T.entry 1 2 * T.entry 2 1)
    - T.entry 0 1 * (T.entry 1 0 * T.entry 2 2 - T.entry 1 2 * T.entry 2 0)
    + T.entry 0 2 * (T.entry 1 0 * T.entry 2 1 - T.entry 1 1 * T.entry 2 0)

/-- One output row of `(transform_matrix @ homogeneous_points.T).T[:, :3]`. -/
def transformRow (T : Arr2) (x y z : ℝ) : Vec3 :=
  ⟨T.entry 0 0 * x + T.entry 0 1 * y + T.entry 0 2 * z + T.entry 0 3,
   T.entry 1 0 * x + T.entry 1 1 * y + T.entry 1 2 * z + T.entry 1 3,
   T.entry 2 0 * x + T.entry 2 1 * y + T.entry 2 2 * z + T.entry 2 3⟩

/-- `apply_transform_to_points(points, transform_matrix)`
(bag2las_transform.py:146-187).  Raising `ValueError` is modelled as
`Except.error`; the two diagnostic `print` warnings (determinant far from 1,
NaN/Inf in the result) are modelled as a returned list of warning tags.  The
float-specific NaN/Inf test is modelled by an arbitrary injected predicate
`isBad` on the computed coordinates. -/
def apply_transform_to_points (isBad : ℝ → Bool) (points transform_matrix : Arr2) :
    Except String (List Vec3 × List String) :=
  if points.cols ≠ 3 then
    Except.error "Points must have 3 columns"
  else if ¬(transform_matrix.rows = 4 ∧ transform_matrix.cols = 4) then
    Except.error "Transform matrix must be 4x4"
  else
    let det := det3OfArr transform_matrix
    let warnDet : List String := if |det - 1| > 1e-3 then ["determinant warning"] else []
    let out : List Vec3 := (List.range points.rows).map fun k =>
      transformRow transform_matrix (points.entry k 0) (points.entry k 1) (points.entry k 2)
    let warnBad : List String :=
      if out.any (fun p => isBad p.x || isBad p.y || isBad p.z) then ["nan inf warning"] else []
    Except.ok (out, warnDet ++ warnBad)

/-- `np.min` over a 1-D array (0 on an empty list, which the source never
queries). -/
def listMin : List ℝ → ℝ
  | [] => 0
  | x :: xs => xs.foldl min x

/-- `np.max` over a 1-D array. -/
def listMax : List ℝ → ℝ
  | [] => 0
  | x :: xs => xs.foldl max x

/-- `np.searchsorted(ts, t)` with the default `side='left'` on a sorted array:
the number of leading entries strictly below `t`. -/
def searchsortedLeft (ts : List ℝ) (t : ℝ) : ℕ :=
  (ts.takeWhile fun x => decide (x < t)).length

/-- One channel of `scipy.interpolate.interp1d(ts, vs, kind='linear',
bounds_error=False, fill_value='extrapolate')` evaluated at `t`
(bag2las_transform.py:279-290): linear interpolation on the bracketing
segment, extrapolating with the first/last segment outside the node range. -/
def interp1dAt (ts vs : List ℝ) (t : ℝ) : ℝ :=
  let idx := min (max (searchsortedLeft ts t) 1) (ts.length - 1)
  let t1 := ts.getD (idx - 1) 0
  let t2 := ts.getD idx 0
  let v1 := vs.getD (idx - 1) 0
  let v2 := vs.getD idx 0
  v1 + (t - t1) * (v2 - v1) / (t2 - t1)

/-- The default quaternion value used for out-of-range list reads. -/
def quatZero : Quat := ⟨0, 0, 0, 0⟩

/-- The orientation channel of `interpolate_odometry_data` at one query time
(bag2las_transform.py:296-318): clamp to the first/last quaternion outside the
odometry time range, otherwise SLERP between the bracketing samples with the
fraction clamped to `[0, 1]` (and set to `0` when the bracket is degenerate). -/
def interpOrientationAt (odomTimes : List ℝ) (odomQuats : List Quat) (t : ℝ) : Quat :=
  if t ≤ odomTimes.getD 0 0 then odomQuats.getD 0 quatZero
  else if t ≥ odomTimes.getD (odomTimes.length - 1) 0 then
    odomQuats.getD (odomQuats.length - 1) quatZero
  else
    let idx := max (searchsortedLeft odomTimes t) 1
    let t1 := odomTimes.getD (idx - 1) 0
    let t2 := odomTimes.getD idx 0
    let q1 := odomQuats.getD (idx - 1) quatZero
    let q2 := odomQuats.getD idx quatZero
    let frac := if t2 ≠ t1 then (t - t1) / (t2 - t1) else 0
    slerp_quaternions q1 q2 (min (max frac 0) 1)

/-- `interpolate_odometry_data(pc_timestamps, odom_timestamps, odom_positions,
odom_orientations)` (bag2las_transform.py:238-326).  The `(None, None)`
sentinel returned on fewer than two odometry samples, or when the odometry and
point-cloud time ranges do not overlap, is modelled as `none`. -/
def interpolate_odometry_data (pcTimes odomTimes : List ℝ) (odomPos : List Vec3)
    (odomQuats : List Quat) : Option (List Vec3 × List Quat) :=
  if odomTimes.length < 2 then none
  else
    let odomStart := listMin odomTimes
    let odomEnd := listMax odomTimes
    let pcStart := listMin pcTimes
    let pcEnd := listMax pcTimes
    if max odomStart pcStart ≥ min odomEnd pcEnd then none
    else
      let xs := odomPos.map Vec3.x
      let ys := odomPos.map Vec3.y
      let zs := odomPos.map Vec3.z
      let ips := pcTimes.map fun t =>
        (⟨interp1dAt odomTimes xs t, interp1dAt odomTimes ys t, interp1dAt odomTimes zs t⟩ : Vec3)
      let iqs := pcTimes.map fun t => interpOrientationAt odomTimes odomQuats t
      some (ips, iqs)

/-- Euclidean distance `np.linalg.norm(a - b)` between two positions. -/
def vecDist (a b : Vec3) : ℝ :=
  Real.sqrt ((a.x - b.x) ^ 2 + (a.y - b.y) ^ 2 + (a.z - b.z) ^ 2)

/-- The default pose value used for out-of-range list reads. -/
def defaultPose : ℝ × Vec3 × Quat := (0, ⟨0, 0, 0⟩, quatZero)

/-- The state of a `SimpleSLAM` instance (bag2las_transform.py:400-417): the
two configuration constants and the pose / edge lists. -/
structure SLAMState where
  loop_closure_distance : ℝ
  min_time_gap : ℝ
  poses : List (ℝ × Vec3 × Quat)
  odometry_edges : List (ℕ × ℕ)
  loop_closure_edges : List (ℕ × ℕ × ℝ)

/-- `SimpleSLAM.__init__(loop_closure_distance, min_time_gap)`: fresh empty
graph with the given configuration constants. -/
def slamInit (loop_closure_distance min_time_gap : ℝ) : SLAMState :=
  ⟨loop_closure_distance, min_time_gap, [], [], []⟩

/-- The default arguments of `SimpleSLAM.__init__`
(bag2las_transform.py:405: `loop_closure_distance=2.0, min_time_gap=10.0`). -/
def slamCtorDefaults : ℝ × ℝ := (2.0, 10.0)

/-- A `SimpleSLAM()` instance built with the constructor's default arguments. -/
def slamInitDefault : SLAMState := slamInit slamCtorDefaults.1 slamCtorDefaults.2

/-- The arguments `apply_slam_optimization` passes to the constructor
(bag2las_transform.py:706-709: `loop_closure_distance=3.0, min_time_gap=15.0`). -/
def applySlamArgs : ℝ × ℝ := (3.0, 15.0)

/-- `SimpleSLAM.add_pose(timestamp, position, quaternion)`
(bag2las_transform.py:419-428): append the pose, add a sequential edge from
the previous pose when one exists, return the new pose id. -/
def add_pose (s : SLAMState) (timestamp : ℝ) (position : Vec3) (quaternion : Quat) :
    ℕ × SLAMState :=
  let pose_id := s.poses.length
  (pose_id,
   { s with
      poses := s.poses ++ [(timestamp, position, quaternion)],
      odometry_edges :=
        if pose_id > 0 then s.odometry_edges ++ [(pose_id - 1, pose_id)]
        else s.odometry_edges })

/-- `SimpleSLAM._calculate_geometric_features(pc)`
(bag2las_transform.py:527-536): zeros for an empty cloud, otherwise the
per-axis means followed by the per-axis (population) standard deviations. -/
def calculate_geometric_features (pc : List Vec3) : List ℝ :=
  if pc.length = 0 then [0, 0, 0, 0, 0, 0]
  else
    let n : ℝ := pc.length
    let mx := (pc.map Vec3.x).sum / n
    let my := (pc.map Vec3.y).sum / n
    let mz := (pc.map Vec3.z).sum / n
    let sx := Real.sqrt ((pc.map fun p => (p.x - mx) ^ 2).sum / n)
    let sy := Real.sqrt ((pc.map fun p => (p.y - my) ^ 2).sum / n)
    let sz := Real.sqrt ((pc.map fun p => (p.z - mz) ^ 2).sum / n)
    [mx, my, mz, sx, sy, sz]

/-- `SimpleSLAM._calculate_point_cloud_similarity(pc1, pc2, max_points=1000)`
(bag2las_transform.py:488-525): `0.0` when either cloud is `None` or empty;
otherwise downsample clouds above `max_points` points (the random choice of
`np.random.choice` is modelled by the injected `sample` function), compare the
6 geometric features, and score `exp(-mean(|f1-f2| / (|f1|+|f2|+1e-6)))`. -/
def calculate_point_cloud_similarity (sample : List Vec3 → List Vec3)
    (pc1 pc2 : Option (List Vec3)) : ℝ :=
  match pc1, pc2 with
  | some c1, some c2 =>
    if c1.length = 0 ∨ c2.length = 0 then 0
    else
      let d1 := if c1.length > 1000 then sample c1 else c1
      let d2 := if c2.length > 1000 then sample c2 else c2
      let f1 := calculate_geometric_features d1
      let f2 := calculate_geometric_features d2
      let diffs := (f1.zip f2).map fun ab => |ab.1 - ab.2| / (|ab.1| + |ab.2| + 1e-6)
      Real.exp (-(diffs.sum / (diffs.length : ℝ)))
  | _, _ => 0

/-- The confidence computed for a candidate loop-closure pair `(i, j)`
(bag2las_transform.py:469-478): `max(0, 1 - distance/loop_closure_distance)`,
multiplied by the point-cloud similarity when clouds are supplied and both
indices are in range. -/
def loopConfidence (sample : List Vec3 → List Vec3) (s : SLAMState)
    (point_clouds : Option (List (Option (List Vec3)))) (i j : ℕ) : ℝ :=
  let distance := vecDist ((s.poses.getD i defaultPose).2.1) ((s.poses.getD j defaultPose).2.1)
  let conf0 := max 0 (1 - distance / s.loop_closure_distance)
  match point_clouds with
  | some pcs =>
    if i < pcs.length ∧ j < pcs.length then
      conf0 * calculate_point_cloud_similarity sample (pcs.getD i none) (pcs.getD j none)
    else conf0
  | none => conf0

/-- `SimpleSLAM.detect_loop_closures(point_clouds)`
(bag2las_transform.py:430-486): empty on fewer than three poses; otherwise,
for each pose `i` and each later pose `j` within `loop_closure_distance`
(the KDTree ball query), skip pairs with time gap below `min_time_gap`,
compute `confidence = max(0, 1 - distance/loop_closure_distance)`, multiply by
the point-cloud similarity when clouds are supplied and both indices are in
range, and keep the edge when `confidence > 0.3`. -/
def detect_loop_closures (sample : List Vec3 → List Vec3) (s : SLAMState)
    (point_clouds : Option (List (Option (List Vec3)))) : List (ℕ × ℕ × ℝ) :=
  let num_poses := s.poses.length
  if num_poses < 3 then []
  else
    (List.range num_poses).flatMap fun i =>
      let current_time := (s.poses.getD i defaultPose).1
      let current_pos := (s.poses.getD i defaultPose).2.1
      let nearby := (List.range num_poses).filter fun j =>
        decide (vecDist current_pos ((s.poses.getD j defaultPose).2.1) ≤ s.loop_closure_distance)
      nearby.filterMap fun j =>
        if j ≤ i then none
        else
          let time_gap := |current_time - (s.poses.getD j defaultPose).1|
          if time_gap < s.min_time_gap then none
          else
            let confidence := loopConfidence sample s point_clouds i j
            if confidence > 0.3 then some (i, j, confidence) else none

/-- Read the position slice `params[7i : 7i+3]` of the optimizer's flattened
parameter vector as a `Vec3`. -/
def paramPos (params : List ℝ) (i : ℕ) : Vec3 :=
  let l := (params.drop (7 * i)).take 3
  ⟨l.getD 0 0, l.getD 1 0, l.getD 2 0⟩

/-- Read the quaternion slice `params[7i+3 : 7i+7]` as a `Quat`. -/
def paramQuat (params : List ℝ) (i : ℕ) : Quat :=
  let l := (params.drop (7 * i + 3)).take 4
  ⟨l.getD 0 0, l.getD 1 0, l.getD 2 0, l.getD 3 0⟩

/-- `SimpleSLAM._pose_graph_residuals(params)` (bag2las_transform.py:598-642):
for each odometry edge, the translation residual
`(pos_j - pos_i) - (orig_pos_j - orig_pos_i)` followed by the difference of
candidate quaternion x,y,z components weighted by `0.1`; then for each loop
closure edge the residual `(pos_i - pos_j) * confidence`.  Edges with an
out-of-range endpoint contribute nothing (the code's `i < len(poses)` guard). -/
def pose_graph_residuals (s : SLAMState) (params : List ℝ) : List ℝ :=
  let n := s.poses.length
  let odomRes := s.odometry_edges.flatMap fun e =>
    if e.1 < n ∧ e.2 < n then
      let pi := paramPos params e.1
      let pj := paramPos params e.2
      let qi := paramQuat params e.1
      let qj := paramQuat params e.2
      let oi := (s.poses.getD e.1 defaultPose).2.1
      let oj := (s.poses.getD e.2 defaultPose).2.1
      [pj.x - pi.x - (oj.x - oi.x), pj.y - pi.y - (oj.y - oi.y), pj.z - pi.z - (oj.z - oi.z),
       (qj.x - qi.x) * 0.1, (qj.y - qi.y) * 0.1, (qj.z - qi.z) * 0.1]
    else []
  let loopRes := s.loop_closure_edges.flatMap fun e =>
    if e.1 < n ∧ e.2.1 < n then
      let pi := paramPos params e.1
      let pj := paramPos params e.2.1
      [(pi.x - pj.x) * e.2.2, (pi.y - pj.y) * e.2.2, (pi.z - pj.z) * e.2.2]
    else []
  odomRes ++ loopRes

/-- The initial parameter vector of `SimpleSLAM.optimize_poses`
(bag2las_transform.py:551-557): `(x, y, z, qx, qy, qz, qw)` per pose. -/
def slamInitialParams (s : SLAMState) : List ℝ :=
  s.poses.flatMap fun p => [p.2.1.x, p.2.1.y, p.2.1.z, p.2.2.x, p.2.2.y, p.2.2.z, p.2.2.w]

/-- `SimpleSLAM.optimize_poses(max_iterations=50)`
(bag2las_transform.py:538-596): with fewer than two poses, return a copy of
the pose list; otherwise flatten the poses into the initial parameter vector,
run the least-squares solver (`scipy.optimize.least_squares`, modelled by the
injected `solver` taking the residual function and the initial vector), and
rebuild the poses from the solution, keeping each original timestamp and
renormalizing each quaternion.  The method never writes to the instance, so
the state is returned unchanged. -/
def optimize_poses (solver : (List ℝ → List ℝ) → List ℝ → List ℝ) (s : SLAMState) :
    List (ℝ × Vec3 × Quat) × SLAMState :=
  if s.poses.length < 2 then (s.poses.map id, s)
  else
    let xopt := solver (pose_graph_residuals s) (slamInitialParams s)
    let optimized := (List.range s.poses.length).map fun i =>
      ((s.poses.getD i defaultPose).1, paramPos xopt i, quatNormalize (paramQuat xopt i))
    (optimized, s)

/-- The `SimpleSLAM` instance constructed by `apply_slam_optimization`
(bag2las_transform.py:705-714): the constructor is called with
`loop_closure_distance=3.0, min_time_gap=15.0` and every trajectory sample is
added with `add_pose`. -/
def apply_slam_optimization_state (ts : List ℝ) (ps : List Vec3) (qs : List Quat) : SLAMState :=
  (List.range ts.length).foldl
    (fun s i => (add_pose s (ts.getD i 0) (ps.getD i ⟨0, 0, 0⟩) (qs.getD i quatZero)).2)
    (slamInit applySlamArgs.1 applySlamArgs.2)

/-- The orchestrator's per-run transform mode (`"none"`, `"global"`,
`"local"`). -/
inductive TransformMode where
  | modeNone
  | modeGlobal
  | modeLocal
deriving DecidableEq

/-- The transform pipeline of `convert_bag_to_laz`
(bag2las_transform.py:1792-1816 and 1833-1917): when the mode is `global` or
`local` and odometry is available, interpolate it onto the message timestamps,
falling back to mode `none` when interpolation returns the sentinel; in
`local` mode invert the first scan's transform once as the reference; then for
each message build its transform (`global`: the scan's own;
`local`: reference times the scan's own; otherwise none) and apply it to the
scan's points, accumulating all points in order. -/
def convert_points (mode : TransformMode) (odom : Option (List ℝ × List Vec3 × List Quat))
    (msgTimes : List ℝ) (batches : List (List Vec3)) : List Vec3 :=
  let interpOpt : Option (List Vec3 × List Quat) :=
    match odom with
    | some o =>
      if mode = TransformMode.modeGlobal ∨ mode = TransformMode.modeLocal then
        interpolate_odometry_data msgTimes o.1 o.2.1 o.2.2
      else none
    | none => none
  let effMode := match interpOpt with
    | none => TransformMode.modeNone
    | some _ => mode
  let reference_transform : Matrix (Fin 4) (Fin 4) ℝ :=
    match interpOpt with
    | some iq =>
      if mode = TransformMode.modeLocal then
        (create_transform_matrix (iq.1.getD 0 ⟨0, 0, 0⟩) (iq.2.getD 0 quatZero) none)⁻¹
      else 1
    | none => 1
  (List.range batches.length).flatMap fun msg_idx =>
    let pts := batches.getD msg_idx []
    let Topt : Option (Matrix (Fin 4) (Fin 4) ℝ) :=
      match effMode, interpOpt with
      | TransformMode.modeGlobal, some iq =>
        some (create_transform_matrix (iq.1.getD msg_idx ⟨0, 0, 0⟩) (iq.2.getD msg_idx quatZero) none)
      | TransformMode.modeLocal, some iq =>
        some (reference_transform *
          create_transform_matrix (iq.1.getD msg_idx ⟨0, 0, 0⟩) (iq.2.getD msg_idx quatZero) none)
      | _, _ => none
    match Topt with
    | some T => pts.map (applyMat4 T)
    | none => pts

/-! ### Concrete example inputs used by witnesses and counterexamples -/

/-- The identity quaternion `[0, 0, 0, 1]`. -/
def qId : Quat := ⟨0, 0, 0, 1⟩

/-- A solver standing in for `scipy.optimize.least_squares` that returns the
initial iterate unchanged. -/
def idSolver : (List ℝ → List ℝ) → List ℝ → List ℝ := fun _ x0 => x0

/-- A 2-pose graph with one sequential edge (witness input). -/
def c2s : SLAMState :=
  ⟨2, 10, [(0, ⟨0, 0, 0⟩, qId), (1, ⟨1, 0, 0⟩, qId)], [(0, 1)], []⟩

/-- A candidate parameter vector for the 2-pose graph (7 floats per pose). -/
def c2params : List ℝ := [5, 6, 7, 0, 0, 0, 1, 8, 9, 10, 2, 3, 4, 1]

/-- Three poses: the first and third at the same position with a 100-second
gap, the middle one 10 units away (loop-closure example input). -/
def c3sGap : SLAMState :=
  ⟨3, 15, [(0, ⟨0, 0, 0⟩, qId), (1, ⟨10, 0, 0⟩, qId), (100, ⟨0, 0, 0⟩, qId)],
   [(0, 1), (1, 2)], []⟩

/-- Same positions but all poses within 2 seconds (below the 15-second
minimum time gap). -/
def c3sClose : SLAMState :=
  ⟨3, 15, [(0, ⟨0, 0, 0⟩, qId), (1, ⟨10, 0, 0⟩, qId), (2, ⟨0, 0, 0⟩, qId)],
   [(0, 1), (1, 2)], []⟩

/-- The end-to-end scenario's trajectory timestamps `t = [0, 10, 20]`. -/
def c4times : List ℝ := [0, 10, 20]

/-- The end-to-end scenario's trajectory positions. -/
def c4pos : List Vec3 := [⟨0, 0, 0⟩, ⟨1, 0, 0⟩, ⟨2, 0, 0⟩]

/-- The end-to-end scenario's identity orientations. -/
def c4quats : List Quat := [qId, qId, qId]

/-- One point batch `[(0,0,0)]` per scan. -/
def c4batches : List (List Vec3) := [[⟨0, 0, 0⟩], [⟨0, 0, 0⟩], [⟨0, 0, 0⟩]]

/-! ### Shared helper lemmas -/

theorem getD_drop_eq {α : Type} (l : List α) (k i : ℕ) (d : α) :
    (l.drop k).getD i d = l.getD (k + i) d := by
  simp [List.getD, List.getElem?_drop]

theorem getD_take_eq {α : Type} (l : List α) (n i : ℕ) (d : α) (h : i < n) :
    (l.take n).getD i d = l.getD i d := by
  simp [List.getD, List.getElem?_take, h]

theorem paramPos_getD (params : List ℝ) (i : ℕ) :
    paramPos params i =
      ⟨params.getD (7 * i) 0, params.getD (7 * i + 1) 0, params.getD (7 * i + 2) 0⟩ := by
  simp [paramPos, getD_take_eq, getD_drop_eq]

theorem paramQuat_getD (params : List ℝ) (i : ℕ) :
    paramQuat params i =
      ⟨params.getD (7 * i + 3) 0, params.getD (7 * i + 4) 0, params.getD (7 * i + 5) 0,
       params.getD (7 * i + 6) 0⟩ := by
  simp only [paramQuat]
  rw [getD_take_eq _ _ _ _ (by norm_num), getD_take_eq _ _ _ _ (by norm_num),
    getD_take_eq _ _ _ _ (by norm_num), getD_take_eq _ _ _ _ (by norm_num)]
  simp only [getD_drop_eq]

theorem addPoseFold_config (ts : List ℝ) (ps : List Vec3) (qs : List Quat) (l : List ℕ)
    (s : SLAMState) :
    (l.foldl (fun s' i => (add_pose s' (ts.getD i 0) (ps.getD i ⟨0, 0, 0⟩) (qs.getD i quatZero)).2)
        s).loop_closure_distance = s.loop_closure_distance ∧
    (l.foldl (fun s' i => (add_pose s' (ts.getD i 0) (ps.getD i ⟨0, 0, 0⟩) (qs.getD i quatZero)).2)
        s).min_time_gap = s.min_time_gap := by
  induction l generalizing s with
  | nil => exact ⟨rfl, rfl⟩
  | cons a t ih => simpa [add_pose] using ih _

/-! ### Claim theorems -/

/-- C9 (counterexample): the claim "the pose-graph optimizer's configuration
constants default to a loop-closure search radius of 3.0 and a minimum time
gap of 15.0" is false of the optimizer's constructor: a default-constructed
`SimpleSLAM` has `loop_closure_distance = 2.0` and `min_time_gap = 10.0`. -/
theorem C9_counterexample :
    ¬(slamInitDefault.loop_closure_distance = 3 ∧ slamInitDefault.min_time_gap = 15) := by
  norm_num [slamInitDefault, slamInit, slamCtorDefaults]

/-- C9 (amended): the `SimpleSLAM` constructor defaults are a loop-closure
search radius of 2.0 and a minimum time gap of 10.0 seconds; the values 3.0
and 15.0 are what `apply_slam_optimization` explicitly passes when it builds
the optimizer, so they are the constants in effect in the pipeline. -/
theorem C9_slam_configuration (ts : List ℝ) (ps : List Vec3) (qs : List Quat) :
    slamInitDefault.loop_closure_distance = 2 ∧ slamInitDefault.min_time_gap = 10 ∧
    (apply_slam_optimization_state ts ps qs).loop_closure_distance = 3 ∧
    (apply_slam_optimization_state ts ps qs).min_time_gap = 15 := by
  refine ⟨by norm_num [slamInitDefault, slamInit, slamCtorDefaults],
    by norm_num [slamInitDefault, slamInit, slamCtorDefaults], ?_, ?_⟩
  · rw [apply_slam_optimization_state, (addPoseFold_config ts ps qs _ _).1]
    norm_num [slamInit, applySlamArgs]
  · rw [apply_slam_optimization_state, (addPoseFold_config ts ps qs _ _).2]
    norm_num [slamInit, applySlamArgs]

/-- C10: the point-cloud similarity returns exactly `0.0` whenever either
cloud is `None` or has zero points (the guard fires before any feature
computation), even though the similarity formula itself always yields a value
in `(0, 1]` for two nonempty clouds — so such a pair can never pass a positive
confidence threshold. -/
theorem C10_similarity_guard (sample : List Vec3 → List Vec3)
    (pc1 pc2 : Option (List Vec3)) :
    ((pc1 = none ∨ pc2 = none ∨ pc1 = some [] ∨ pc2 = some []) →
      calculate_point_cloud_similarity sample pc1 pc2 = 0) ∧
    (∀ c1 c2 : List Vec3, c1 ≠ [] → c2 ≠ [] →
      0 < calculate_point_cloud_similarity sample (some c1) (some c2) ∧
      calculate_point_cloud_similarity sample (some c1) (some c2) ≤ 1) := by
  constructor
  · intro h
    rcases h with rfl | rfl | rfl | rfl
    · cases pc2 <;> simp [calculate_point_cloud_similarity]
    · cases pc1 <;> simp [calculate_point_cloud_similarity]
    · cases pc2 <;> simp [calculate_point_cloud_similarity]
    · cases pc1 <;> simp [calculate_point_cloud_similarity]
  · intro c1 c2 h1 h2
    have hg : ¬(c1.length = 0 ∨ c2.length = 0) := by
      simp [List.length_eq_zero, h1, h2]
    rw [calculate_point_cloud_similarity]
    simp only [hg, if_false]
    constructor
    · exact Real.exp_pos _
    · rw [Real.exp_le_one_iff, neg_nonpos]
      apply div_nonneg _ (Nat.cast_nonneg _)
      apply List.sum_nonneg
      intro x hx
      rw [List.mem_map] at hx
      obtain ⟨ab, _, rfl⟩ := hx
      positivity

/-- C10 witness: a concrete `None` first cloud yields similarity `0`. -/
theorem C10_witness :
    calculate_point_cloud_similarity id none (some [⟨1, 2, 3⟩]) = 0 :=
  (C10_similarity_guard id none (some [⟨1, 2, 3⟩])).1 (Or.inl rfl)

theorem flatMap_congr_mem {α β : Type} {l : List α} {f g : α → List β}
    (h : ∀ a ∈ l, f a = g a) : l.flatMap f = l.flatMap g := by
  induction l with
  | nil => rfl
  | cons a t ih =>
    rw [List.flatMap_cons, List.flatMap_cons, h a (by simp),
      ih fun x hx => h x (by simp [hx])]

/-- C2: for every pose-graph state with in-range edges and every candidate
parameter vector, the residual vector is, per sequential edge `(i,j)`, the
translation residual `(pos_j - pos_i) - (orig_pos_j - orig_pos_i)` followed by
the difference of the candidate quaternion x,y,z components scaled by `0.1`,
then, per loop-closure edge `(i,j,confidence)`, `confidence * (pos_i - pos_j)`,
where `pos_k`/`quat_k` are the 7-float chunks of the parameter vector. -/
theorem C2_residual_structure (s : SLAMState) (params : List ℝ)
    (hod : ∀ e ∈ s.odometry_edges, e.1 < s.poses.length ∧ e.2 < s.poses.length)
    (hlc : ∀ e ∈ s.loop_closure_edges, e.1 < s.poses.length ∧ e.2.1 < s.poses.length) :
    pose_graph_residuals s params =
      (s.odometry_edges.flatMap fun e =>
        [(params.getD (7 * e.2) 0 - params.getD (7 * e.1) 0) -
            ((s.poses.getD e.2 defaultPose).2.1.x - (s.poses.getD e.1 defaultPose).2.1.x),
         (params.getD (7 * e.2 + 1) 0 - params.getD (7 * e.1 + 1) 0) -
            ((s.poses.getD e.2 defaultPose).2.1.y - (s.poses.getD e.1 defaultPose).2.1.y),
         (params.getD (7 * e.2 + 2) 0 - params.getD (7 * e.1 + 2) 0) -
            ((s.poses.getD e.2 defaultPose).2.1.z - (s.poses.getD e.1 defaultPose).2.1.z),
         (params.getD (7 * e.2 + 3) 0 - params.getD (7 * e.1 + 3) 0) * 0.1,
         (params.getD (7 * e.2 + 4) 0 - params.getD (7 * e.1 + 4) 0) * 0.1,
         (params.getD (7 * e.2 + 5) 0 - params.getD (7 * e.1 + 5) 0) * 0.1]) ++
      (s.loop_closure_edges.flatMap fun e =>
        [(params.getD (7 * e.1) 0 - params.getD (7 * e.2.1) 0) * e.2.2,
         (params.getD (7 * e.1 + 1) 0 - params.getD (7 * e.2.1 + 1) 0) * e.2.2,
         (params.getD (7 * e.1 + 2) 0 - params.getD (7 * e.2.1 + 2) 0) * e.2.2]) := by
  simp only [pose_graph_residuals]
  refine congrArg₂ (· ++ ·) (flatMap_congr_mem ?_) (flatMap_congr_mem ?_)
  · intro e he
    rw [if_pos ⟨(hod e he).1, (hod e he).2⟩]
    simp [paramPos_getD, paramQuat_getD]
  · intro e he
    rw [if_pos ⟨(hlc e he).1, (hlc e he).2⟩]
    simp [paramPos_getD]

/-- C2 witness: the residual structure instantiated on a concrete 2-pose
graph and parameter vector. -/
theorem C2_witness :
    (∀ e ∈ c2s.odometry_edges, e.1 < c2s.poses.length ∧ e.2 < c2s.poses.length) ∧
    (∀ e ∈ c2s.loop_closure_edges, e.1 < c2s.poses.length ∧ e.2.1 < c2s.poses.length) ∧
    pose_graph_residuals c2s c2params =
      (c2s.odometry_edges.flatMap fun e =>
        [(c2params.getD (7 * e.2) 0 - c2params.getD (7 * e.1) 0) -
            ((c2s.poses.getD e.2 defaultPose).2.1.x - (c2s.poses.getD e.1 defaultPose).2.1.x),
         (c2params.getD (7 * e.2 + 1) 0 - c2params.getD (7 * e.1 + 1) 0) -
            ((c2s.poses.getD e.2 defaultPose).2.1.y - (c2s.poses.getD e.1 defaultPose).2.1.y),
         (c2params.getD (7 * e.2 + 2) 0 - c2params.getD (7 * e.1 + 2) 0) -
            ((c2s.poses.getD e.2 defaultPose).2.1.z - (c2s.poses.getD e.1 defaultPose).2.1.z),
         (c2params.getD (7 * e.2 + 3) 0 - c2params.getD (7 * e.1 + 3) 0) * 0.1,
         (c2params.getD (7 * e.2 + 4) 0 - c2params.getD (7 * e.1 + 4) 0) * 0.1,
         (c2params.getD (7 * e.2 + 5) 0 - c2params.getD (7 * e.1 + 5) 0) * 0.1]) ++
      (c2s.loop_closure_edges.flatMap fun e =>
        [(c2params.getD (7 * e.1) 0 - c2params.getD (7 * e.2.1) 0) * e.2.2,
         (c2params.getD (7 * e.1 + 1) 0 - c2params.getD (7 * e.2.1 + 1) 0) * e.2.2,
         (c2params.getD (7 * e.1 + 2) 0 - c2params.getD (7 * e.2.1 + 2) 0) * e.2.2]) := by
  have h1 : ∀ e ∈ c2s.odometry_edges, e.1 < c2s.poses.length ∧ e.2 < c2s.poses.length := by
    intro e he
    rw [show c2s.odometry_edges = [(0, 1)] from rfl, List.mem_singleton] at he
    subst he
    norm_num [c2s]
  have h2 : ∀ e ∈ c2s.loop_closure_edges, e.1 < c2s.poses.length ∧ e.2.1 < c2s.poses.length := by
    intro e he
    rw [show c2s.loop_closure_edges = [] from rfl] at he
    exact absurd he (List.not_mem_nil e)
  exact ⟨h1, h2, C2_residual_structure c2s c2params h1 h2⟩

theorem quatNorm_nonneg (q : Quat) : 0 ≤ quatNorm q := Real.sqrt_nonneg _

theorem quatDot_self_nonneg (q : Quat) : 0 ≤ quatDot q q := by
  unfold quatDot
  nlinarith [sq_nonneg q.x, sq_nonneg q.y, sq_nonneg q.z, sq_nonneg q.w]

theorem quatNorm_normalize (q : Quat) (h : quatNorm q ≠ 0) :
    quatNorm (quatNormalize q) = 1 := by
  have hd : quatDot q q ≠ 0 := fun h0 => h (by rw [quatNorm, h0, Real.sqrt_zero])
  have hsq : quatNorm q ^ 2 = quatDot q q := Real.sq_sqrt (quatDot_self_nonneg q)
  have hkey : quatDot (quatNormalize q) (quatNormalize q) = quatDot q q / quatNorm q ^ 2 := by
    simp only [quatDot, quatNormalize]
    rw [div_mul_div_comm, div_mul_div_comm, div_mul_div_comm, div_mul_div_comm,
      div_add_div_same, div_add_div_same, div_add_div_same, sq]
  rw [quatNorm, hkey, hsq, div_self hd, Real.sqrt_one]

theorem getD_map_range {β : Type} (n i : ℕ) (f : ℕ → β) (d : β) (h : i < n) :
    ((List.range n).map f).getD i d = f i := by
  simp [List.getD, List.getElem?_map, List.getElem?_range, h]

/-- C6: for every solver output whose quaternion chunks are nonzero,
`optimize_poses` returns a pose list of the same length in which every pose
keeps its original timestamp and every quaternion is renormalized to unit
norm; the stored state is returned untouched; and with fewer than 2 poses the
input pose list is returned unchanged. -/
theorem C6_optimize_poses_invariants (solver : (List ℝ → List ℝ) → List ℝ → List ℝ)
    (s : SLAMState)
    (hnz : ∀ i, i < s.poses.length →
      quatNorm (paramQuat (solver (pose_graph_residuals s) (slamInitialParams s)) i) ≠ 0) :
    (optimize_poses solver s).1.length = s.poses.length ∧
    (∀ i, i < s.poses.length →
      ((optimize_poses solver s).1.getD i defaultPose).1 = (s.poses.getD i defaultPose).1) ∧
    (2 ≤ s.poses.length → ∀ i, i < s.poses.length →
      quatNorm (((optimize_poses solver s).1.getD i defaultPose).2.2) = 1) ∧
    (optimize_poses solver s).2 = s ∧
    (s.poses.length < 2 → (optimize_poses solver s).1 = s.poses) := by
  by_cases hlen : s.poses.length < 2
  · rw [optimize_poses, if_pos hlen]
    refine ⟨by simp, fun i hi => by simp, fun h2 => absurd h2 (by omega), rfl, fun _ => by simp⟩
  · rw [optimize_poses, if_neg hlen]
    refine ⟨by simp, fun i hi => ?_, fun _ i hi => ?_, rfl, fun hc => absurd hc hlen⟩
    · rw [getD_map_range _ _ _ _ hi]
    · rw [getD_map_range _ _ _ _ hi]
      exact quatNorm_normalize _ (hnz i hi)

theorem quatNorm_qId : quatNorm qId = 1 := by
  simp only [qId, quatNorm, quatDot]
  norm_num

/-- C6 witness: the invariants instantiated on a concrete 2-pose graph with
the identity solver. -/
theorem C6_witness :
    (∀ i, i < c2s.poses.length →
      quatNorm (paramQuat (idSolver (pose_graph_residuals c2s) (slamInitialParams c2s)) i) ≠ 0) ∧
    ((optimize_poses idSolver c2s).1.length = c2s.poses.length ∧
     (∀ i, i < c2s.poses.length →
       ((optimize_poses idSolver c2s).1.getD i defaultPose).1 =
         (c2s.poses.getD i defaultPose).1) ∧
     (2 ≤ c2s.poses.length → ∀ i, i < c2s.poses.length →
       quatNorm (((optimize_poses idSolver c2s).1.getD i defaultPose).2.2) = 1) ∧
     (optimize_poses idSolver c2s).2 = c2s ∧
     (c2s.poses.length < 2 → (optimize_poses idSolver c2s).1 = c2s.poses)) := by
  have hnz : ∀ i, i < c2s.poses.length →
      quatNorm (paramQuat (idSolver (pose_graph_residuals c2s) (slamInitialParams c2s)) i) ≠ 0 := by
    intro i hi
    rw [show c2s.poses.length = 2 from rfl] at hi
    interval_cases i
    · rw [show paramQuat (idSolver (pose_graph_residuals c2s) (slamInitialParams c2s)) 0 = qId
        from rfl, quatNorm_qId]
      norm_num
    · rw [show paramQuat (idSolver (pose_graph_residuals c2s) (slamInitialParams c2s)) 1 = qId
        from rfl, quatNorm_qId]
      norm_num
  exact ⟨hnz, C6_optimize_poses_invariants idSolver c2s hnz⟩

/-- C8: `apply_transform_to_points` fails with a shape error exactly when the
points array does not have 3 columns or the transform is not 4×4; on every
well-shaped input it returns the homogeneous multiplication of every row
unconditionally — the determinant and NaN/Inf checks only contribute warnings
and never change or suppress the returned points (the result is the same for
every choice of the badness predicate). -/
theorem C8_apply_transform_to_points_spec (isBad : ℝ → Bool) (points T : Arr2) :
    ((points.cols = 3 ∧ T.rows = 4 ∧ T.cols = 4) →
      ∃ warnings, apply_transform_to_points isBad points T =
        Except.ok (((List.range points.rows).map fun k =>
          transformRow T (points.entry k 0) (points.entry k 1) (points.entry k 2)), warnings)) ∧
    (¬(points.cols = 3 ∧ T.rows = 4 ∧ T.cols = 4) →
      ∃ msg, apply_transform_to_points isBad points T = Except.error msg) := by
  constructor
  · rintro ⟨h3, h4r, h4c⟩
    rw [apply_transform_to_points, if_neg (by simp [h3]), if_neg (by simp [h4r, h4c])]
    exact ⟨_, rfl⟩
  · intro h
    by_cases hc : points.cols = 3
    · have hT : ¬(T.rows = 4 ∧ T.cols = 4) := fun hT => h ⟨hc, hT.1, hT.2⟩
      rw [apply_transform_to_points, if_neg (by simp [hc]), if_pos hT]
      exact ⟨_, rfl⟩
    · rw [apply_transform_to_points, if_pos hc]
      exact ⟨_, rfl⟩

/-- C8 witness: a concrete well-shaped 1×3 points array and 4×4 transform
produce the homogeneous product. -/
theorem C8_witness :
    ((Arr2.mk 1 3 fun _ _ => 0).cols = 3 ∧ (Arr2.mk 4 4 fun _ _ => 1).rows = 4 ∧
      (Arr2.mk 4 4 fun _ _ => 1).cols = 4) ∧
    ∃ warnings, apply_transform_to_points (fun _ => false)
        (Arr2.mk 1 3 fun _ _ => 0) (Arr2.mk 4 4 fun _ _ => 1) =
      Except.ok (((List.range (Arr2.mk 1 3 fun _ _ => (0 : ℝ)).rows).map fun k =>
        transformRow (Arr2.mk 4 4 fun _ _ => 1)
          ((Arr2.mk 1 3 fun _ _ => (0 : ℝ)).entry k 0)
          ((Arr2.mk 1 3 fun _ _ => (0 : ℝ)).entry k 1)
          ((Arr2.mk 1 3 fun _ _ => (0 : ℝ)).entry k 2)), warnings) :=
  ⟨⟨rfl, rfl, rfl⟩,
   (C8_apply_transform_to_points_spec (fun _ => false)
       (Arr2.mk 1 3 fun _ _ => 0) (Arr2.mk 4 4 fun _ _ => 1)).1 ⟨rfl, rfl, rfl⟩⟩

theorem quaternion_to_rotation_matrix_qId : quaternion_to_rotation_matrix qId = 1 := by
  rw [Matrix.one_fin_three]
  simp only [quaternion_to_rotation_matrix, qId]
  norm_num [Real.sqrt_one]

theorem homogeneousMatrix_one_zero : homogeneousMatrix 1 ⟨0, 0, 0⟩ = 1 := by
  ext i j
  fin_cases i <;> fin_cases j <;>
    simp [homogeneousMatrix, Matrix.one_apply, Matrix.vecHead, Matrix.vecTail]

theorem eulerRotationCode_eq_xyz (rx ry rz : ℝ) :
    eulerRotationCode rx ry rz = rotX rx * rotY ry * rotZ rz := by
  ext i j
  fin_cases i <;> fin_cases j <;>
    simp [eulerRotationCode, rotX, rotY, rotZ, Matrix.mul_apply, Fin.sum_univ_three,
      Matrix.vecHead, Matrix.vecTail]

/-- C1 (counterexample): at offset angles `rx = rz = π/2, ry = 0` (with
identity pose and zero translations) the transform built by
`create_transform_matrix` differs from the pose matrix right-multiplied by
the spec's `Rz(rz)·Ry(ry)·Rx(rx)` offset transform: the `(0,1)` entries are
`-1` and `0` respectively. -/
theorem C1_counterexample :
    create_transform_matrix ⟨0, 0, 0⟩ qId
        (some (⟨0, 0, 0⟩, some (Real.pi / 2, 0, Real.pi / 2))) ≠
      create_transform_matrix ⟨0, 0, 0⟩ qId none *
        offsetTransformSpec 0 0 0 (Real.pi / 2) 0 (Real.pi / 2) := by
  intro hEq
  have h01 := congrFun (congrFun hEq 0) 1
  have hT : create_transform_matrix ⟨0, 0, 0⟩ qId none = 1 := by
    rw [show create_transform_matrix ⟨0, 0, 0⟩ qId none =
        homogeneousMatrix (quaternion_to_rotation_matrix qId) ⟨0, 0, 0⟩ from rfl,
      quaternion_to_rotation_matrix_qId, homogeneousMatrix_one_zero]
  have hL : create_transform_matrix ⟨0, 0, 0⟩ qId
      (some (⟨0, 0, 0⟩, some (Real.pi / 2, 0, Real.pi / 2))) 0 1 = -1 := by
    show (homogeneousMatrix (quaternion_to_rotation_matrix qId) ⟨0, 0, 0⟩ *
      homogeneousMatrix (eulerRotationCode (Real.pi / 2) 0 (Real.pi / 2)) ⟨0, 0, 0⟩) 0 1 = -1
    rw [quaternion_to_rotation_matrix_qId, homogeneousMatrix_one_zero, one_mul]
    simp [homogeneousMatrix, eulerRotationCode, Real.cos_pi_div_two, Real.sin_pi_div_two]
  have hR : (create_transform_matrix ⟨0, 0, 0⟩ qId none *
      offsetTransformSpec 0 0 0 (Real.pi / 2) 0 (Real.pi / 2)) 0 1 = 0 := by
    rw [hT, one_mul]
    simp [offsetTransformSpec, homogeneousMatrix, rotX, rotY, rotZ, Matrix.mul_apply,
      Fin.sum_univ_three, Real.cos_pi_div_two, Real.sin_pi_div_two]
  rw [hL, hR] at h01
  norm_num at h01

/-- C1 (amended): `create_transform_matrix` composes the final matrix as
`T_pose` right-multiplied by an offset transform whose translation is
`(tx,ty,tz)` and whose rotation block is `Rx(rx)·Ry(ry)·Rz(rz)` (the Euler
rotations composed with the Z rotation applied first), not
`Rz(rz)·Ry(ry)·Rx(rx)`; a 3-element offset uses the identity rotation, and
with no offset the result is `T_pose` itself. -/
theorem C1_offset_composition (p : Vec3) (q : Quat) (tx ty tz rx ry rz : ℝ) :
    create_transform_matrix p q none = homogeneousMatrix (quaternion_to_rotation_matrix q) p ∧
    create_transform_matrix p q (some (⟨tx, ty, tz⟩, some (rx, ry, rz))) =
      create_transform_matrix p q none *
        homogeneousMatrix (rotX rx * rotY ry * rotZ rz) ⟨tx, ty, tz⟩ ∧
    create_transform_matrix p q (some (⟨tx, ty, tz⟩, none)) =
      create_transform_matrix p q none * homogeneousMatrix 1 ⟨tx, ty, tz⟩ := by
  refine ⟨rfl, ?_, rfl⟩
  show homogeneousMatrix (quaternion_to_rotation_matrix q) p *
      homogeneousMatrix (eulerRotationCode rx ry rz) ⟨tx, ty, tz⟩ = _
  rw [eulerRotationCode_eq_xyz]
  rfl

theorem vecDist_self (v : Vec3) : vecDist v v = 0 := by
  simp [vecDist]

/-- C3: with fewer than 3 poses `detect_loop_closures` returns no edges; with
at least 3 poses it returns exactly the pairs `i < j` whose Euclidean distance
is within `loop_closure_distance`, whose time gap is at least `min_time_gap`,
and whose confidence `max(0, 1 - distance/loop_closure_distance)` — scaled by
the point-cloud similarity when clouds are supplied — exceeds `0.3`; in
particular two same-position poses with adequate time gap (and no clouds)
yield an edge with confidence exactly 1, and a pair below the time gap never
yields an edge. -/
theorem C3_detect_loop_closures_spec (sample : List Vec3 → List Vec3) (s : SLAMState)
    (pcs : Option (List (Option (List Vec3)))) :
    (s.poses.length < 3 → detect_loop_closures sample s pcs = []) ∧
    (3 ≤ s.poses.length → ∀ i j : ℕ, ∀ c : ℝ,
      ((i, j, c) ∈ detect_loop_closures sample s pcs ↔
        i < j ∧ j < s.poses.length ∧
        vecDist ((s.poses.getD i defaultPose).2.1) ((s.poses.getD j defaultPose).2.1) ≤
          s.loop_closure_distance ∧
        s.min_time_gap ≤ |(s.poses.getD i defaultPose).1 - (s.poses.getD j defaultPose).1| ∧
        c = loopConfidence sample s pcs i j ∧ 0.3 < c)) ∧
    (∀ i j : ℕ, 3 ≤ s.poses.length → i < j → j < s.poses.length →
      (s.poses.getD i defaultPose).2.1 = (s.poses.getD j defaultPose).2.1 →
      s.min_time_gap ≤ |(s.poses.getD i defaultPose).1 - (s.poses.getD j defaultPose).1| →
      0 < s.loop_closure_distance →
      (i, j, (1 : ℝ)) ∈ detect_loop_closures sample s none) ∧
    (∀ i j : ℕ, ∀ c : ℝ,
      |(s.poses.getD i defaultPose).1 - (s.poses.getD j defaultPose).1| < s.min_time_gap →
      (i, j, c) ∉ detect_loop_closures sample s pcs) := by
  have hchar : ∀ pcs' : Option (List (Option (List Vec3))), ¬s.poses.length < 3 →
      ∀ i j : ℕ, ∀ c : ℝ,
      ((i, j, c) ∈ detect_loop_closures sample s pcs' ↔
        i < j ∧ j < s.poses.length ∧
        vecDist ((s.poses.getD i defaultPose).2.1) ((s.poses.getD j defaultPose).2.1) ≤
          s.loop_closure_distance ∧
        s.min_time_gap ≤ |(s.poses.getD i defaultPose).1 - (s.poses.getD j defaultPose).1| ∧
        c = loopConfidence sample s pcs' i j ∧ 0.3 < c) := by
    intro pcs' h3 i j c
    rw [detect_loop_closures]
    simp only [h3, if_false]
    rw [List.mem_flatMap]
    constructor
    · rintro ⟨i', hi', hmem⟩
      rw [List.mem_filterMap] at hmem
      obtain ⟨j', hj', hbody⟩ := hmem
      rw [List.mem_filter, List.mem_range] at hj'
      obtain ⟨hj'n, hj'dist⟩ := hj'
      split_ifs at hbody with hji hgap hconf
      injection hbody with h
      injection h with h1 h2
      injection h2 with h3 h4
      subst h1
      subst h3
      subst h4
      exact ⟨by omega, hj'n, of_decide_eq_true hj'dist, not_lt.mp hgap, rfl, hconf⟩
    · rintro ⟨hij, hjn, hdist, hgap, rfl, hconf⟩
      refine ⟨i, List.mem_range.mpr (by omega), ?_⟩
      rw [List.mem_filterMap]
      refine ⟨j, ?_, ?_⟩
      · rw [List.mem_filter, List.mem_range]
        exact ⟨hjn, decide_eq_true hdist⟩
      · rw [if_neg (by omega : ¬j ≤ i), if_neg (not_lt.mpr hgap), if_pos hconf]
  refine ⟨?_, fun h3 => hchar pcs (by omega), ?_, ?_⟩
  · intro h3
    rw [detect_loop_closures]
    simp only [h3, if_true]
  · intro i j h3 hij hjn hpos hgap hr
    rw [hchar none (by omega) i j 1]
    have hd : vecDist ((s.poses.getD i defaultPose).2.1) ((s.poses.getD j defaultPose).2.1) = 0 := by
      rw [hpos, vecDist_self]
    have hconf : loopConfidence sample s none i j = 1 := by
      rw [loopConfidence]
      simp only [hd, zero_div, sub_zero]
      exact max_eq_right (by norm_num)
    exact ⟨hij, hjn, by rw [hd]; exact le_of_lt hr, hgap, hconf.symm, by norm_num⟩
  · intro i j c hgap hmem
    by_cases h3 : s.poses.length < 3
    · rw [detect_loop_closures] at hmem
      simp only [h3, if_true] at hmem
      exact absurd hmem (List.not_mem_nil _)
    · rw [hchar pcs h3 i j c] at hmem
      exact absurd hgap (not_lt.mpr hmem.2.2.2.1)

/-- C3 witness: in a 3-pose graph whose first and third poses share a
position 100 seconds apart, the edge `(0, 2)` is detected with confidence 1;
with the same positions but only a 2-second gap, no `(0, 2)` edge appears. -/
theorem C3_witness :
    ((3 : ℕ) ≤ c3sGap.poses.length ∧ (0 : ℕ) < 2 ∧ 2 < c3sGap.poses.length ∧
      (c3sGap.poses.getD 0 defaultPose).2.1 = (c3sGap.poses.getD 2 defaultPose).2.1 ∧
      c3sGap.min_time_gap ≤
        |(c3sGap.poses.getD 0 defaultPose).1 - (c3sGap.poses.getD 2 defaultPose).1| ∧
      0 < c3sGap.loop_closure_distance) ∧
    (0, 2, (1 : ℝ)) ∈ detect_loop_closures id c3sGap none ∧
    (|(c3sClose.poses.getD 0 defaultPose).1 - (c3sClose.poses.getD 2 defaultPose).1| <
      c3sClose.min_time_gap) ∧
    (0, 2, (1 : ℝ)) ∉ detect_loop_closures id c3sClose none := by
  have hgap : c3sGap.min_time_gap ≤
      |(c3sGap.poses.getD 0 defaultPose).1 - (c3sGap.poses.getD 2 defaultPose).1| := by
    rw [show (c3sGap.poses.getD 0 defaultPose).1 = (0 : ℝ) from rfl,
      show (c3sGap.poses.getD 2 defaultPose).1 = (100 : ℝ) from rfl,
      show c3sGap.min_time_gap = (15 : ℝ) from rfl]
    rw [abs_sub_comm, abs_of_nonneg (by norm_num)]
    norm_num
  have hclose : |(c3sClose.poses.getD 0 defaultPose).1 - (c3sClose.poses.getD 2 defaultPose).1| <
      c3sClose.min_time_gap := by
    rw [show (c3sClose.poses.getD 0 defaultPose).1 = (0 : ℝ) from rfl,
      show (c3sClose.poses.getD 2 defaultPose).1 = (2 : ℝ) from rfl,
      show c3sClose.min_time_gap = (15 : ℝ) from rfl]
    rw [abs_sub_comm, abs_of_nonneg (by norm_num)]
    norm_num
  refine ⟨⟨by norm_num [c3sGap], by norm_num, by norm_num [c3sGap], rfl, hgap,
    by norm_num [c3sGap]⟩, ?_, hclose, ?_⟩
  · exact (C3_detect_loop_closures_spec id c3sGap none).2.2.1 0 2
      (by norm_num [c3sGap]) (by norm_num) (by norm_num [c3sGap]) rfl hgap
      (by norm_num [c3sGap])
  · exact (C3_detect_loop_closures_spec id c3sClose none).2.2.2 0 2 1 hclose

theorem range_getD_flatten {α : Type} (l : List (List α)) :
    (List.range l.length).flatMap (fun i => l.getD i []) = l.flatten := by
  induction l with
  | nil => rfl
  | cons a t ih =>
    rw [List.length_cons, List.range_succ_eq_map, List.flatMap_cons, List.flatMap_map]
    simp only [List.getD_cons_zero, List.getD_cons_succ, Function.comp]
    rw [List.flatten_cons]
    exact congrArg (a ++ ·) ih

/-- C5: interpolation returns the `(None, None)` sentinel — never an
exception — when there are fewer than 2 odometry samples or when the odometry
and point-cloud time ranges do not overlap, and whenever it reports the
sentinel (or odometry is absent) the orchestrator falls back to mode `none`:
every point batch passes through untransformed. -/
theorem C5_insufficient_data_fallback :
    (∀ (pcTimes odomTimes : List ℝ) (odomPos : List Vec3) (odomQuats : List Quat),
      odomTimes.length < 2 →
      interpolate_odometry_data pcTimes odomTimes odomPos odomQuats = none) ∧
    (∀ (pcTimes odomTimes : List ℝ) (odomPos : List Vec3) (odomQuats : List Quat),
      min (listMax odomTimes) (listMax pcTimes) < max (listMin odomTimes) (listMin pcTimes) →
      interpolate_odometry_data pcTimes odomTimes odomPos odomQuats = none) ∧
    (∀ (mode : TransformMode) (ot : List ℝ) (op : List Vec3) (oq : List Quat)
        (msgTimes : List ℝ) (batches : List (List Vec3)),
      interpolate_odometry_data msgTimes ot op oq = none →
      convert_points mode (some (ot, op, oq)) msgTimes batches = batches.flatten) ∧
    (∀ (mode : TransformMode) (msgTimes : List ℝ) (batches : List (List Vec3)),
      convert_points mode none msgTimes batches = batches.flatten) := by
  refine ⟨?_, ?_, ?_, ?_⟩
  · intro pcTimes odomTimes odomPos odomQuats h
    rw [interpolate_odometry_data, if_pos h]
  · intro pcTimes odomTimes odomPos odomQuats h
    rw [interpolate_odometry_data]
    split_ifs with h1
    · rfl
    · have hle : listMax odomTimes ⊓ listMax pcTimes ≤ listMin odomTimes ⊔ listMin pcTimes :=
        le_of_lt h
      simp only [ge_iff_le, hle, if_true]
  · intro mode ot op oq msgTimes batches h
    cases mode <;>
      (simp [convert_points, h];
       simpa [List.getD_eq_getElem?_getD] using range_getD_flatten batches)
  · intro mode msgTimes batches
    cases mode <;>
      (simp [convert_points];
       simpa [List.getD_eq_getElem?_getD] using range_getD_flatten batches)

/-- C5 witness: a single odometry sample triggers the sentinel. -/
theorem C5_witness :
    ([(5 : ℝ)].length < 2) ∧
    interpolate_odometry_data [0, 1] [(5 : ℝ)] [] [] = none :=
  ⟨by norm_num, (C5_insufficient_data_fallback).1 [0, 1] [(5 : ℝ)] [] [] (by norm_num)⟩

theorem quatNorm_neg (q : Quat) : quatNorm (quatNeg q) = quatNorm q := by
  have : quatDot (quatNeg q) (quatNeg q) = quatDot q q := by
    simp only [quatDot, quatNeg]
    ring
  rw [quatNorm, this, quatNorm]

theorem quatNormalize_norm_one {q : Quat} (h : quatNorm q = 1) : quatNormalize q = q := by
  simp [quatNormalize, h]

theorem quatDot_normalize_eq (q1 q2 : Quat) :
    quatDot (quatNormalize q1) (quatNormalize q2) =
      quatDot q1 q2 / (quatNorm q1 * quatNorm q2) := by
  simp only [quatDot, quatNormalize]
  rw [div_mul_div_comm, div_mul_div_comm, div_mul_div_comm, div_mul_div_comm,
    div_add_div_same, div_add_div_same, div_add_div_same]

theorem quatDot_lt_zero_iff (q1 q2 : Quat) (h1 : quatNorm q1 ≠ 0) (h2 : quatNorm q2 ≠ 0) :
    quatDot (quatNormalize q1) (quatNormalize q2) < 0 ↔ quatDot q1 q2 < 0 := by
  have p1 : 0 < quatNorm q1 := (quatNorm_nonneg q1).lt_of_ne (Ne.symm h1)
  have p2 : 0 < quatNorm q2 := (quatNorm_nonneg q2).lt_of_ne (Ne.symm h2)
  have pp : 0 < quatNorm q1 * quatNorm q2 := mul_pos p1 p2
  rw [quatDot_normalize_eq, div_neg_iff]
  constructor
  · rintro (⟨_, hb⟩ | ⟨ha, _⟩)
    · exact absurd hb (not_lt.mpr pp.le)
    · exact ha
  · intro h
    exact Or.inr ⟨h, pp⟩

theorem quat_lin_t0 (a b : Quat) : quatAdd a (quatSmul 0 (quatSub b a)) = a := by
  cases a
  cases b
  simp [quatAdd, quatSmul, quatSub]

theorem quat_lin_t1 (a b : Quat) : quatAdd a (quatSmul 1 (quatSub b a)) = b := by
  cases a
  cases b
  simp [quatAdd, quatSmul, quatSub]

theorem quat_comb_10 (a b : Quat) : quatAdd (quatSmul 1 a) (quatSmul 0 b) = a := by
  cases a
  cases b
  simp [quatAdd, quatSmul]

theorem quat_comb_01 (a b : Quat) : quatAdd (quatSmul 0 a) (quatSmul 1 b) = b := by
  cases a
  cases b
  simp [quatAdd, quatSmul]

/-- The fully inlined form of `slerp_quaternions`, with the post-flip dot
product and flipped second quaternion abstracted as `d` and `qf`. -/
theorem slerp_unfold (q1 q2 : Quat) (t d : ℝ) (qf : Quat)
    (hdq : d = (if quatDot (quatNormalize q1) (quatNormalize q2) < 0 then
      -(quatDot (quatNormalize q1) (quatNormalize q2))
      else quatDot (quatNormalize q1) (quatNormalize q2)))
    (hqf : qf = (if quatDot (quatNormalize q1) (quatNormalize q2) < 0 then
      quatNeg (quatNormalize q2) else quatNormalize q2)) :
    slerp_quaternions q1 q2 t =
      if 0.9995 < d then
        quatNormalize (quatAdd (quatNormalize q1) (quatSmul t (quatSub qf (quatNormalize q1))))
      else
        quatAdd
          (quatSmul (Real.cos (Real.arccos |d| * t) -
            d * Real.sin (Real.arccos |d| * t) / Real.sin (Real.arccos |d|)) (quatNormalize q1))
          (quatSmul (Real.sin (Real.arccos |d| * t) / Real.sin (Real.arccos |d|)) qf) := by
  subst hdq
  subst hqf
  rfl

/-- In the general SLERP branch (`0 ≤ d ≤ 0.9995`), the weights at `t = 1`
are `s0 = 0` and `s1 = 1`. -/
theorem slerp_general_s_one (d : ℝ) (h0 : 0 ≤ d) (hle : d ≤ 0.9995) :
    Real.cos (Real.arccos |d|) - d * Real.sin (Real.arccos |d|) / Real.sin (Real.arccos |d|) = 0 ∧
    Real.sin (Real.arccos |d|) / Real.sin (Real.arccos |d|) = 1 := by
  have habs : |d| = d := abs_of_nonneg h0
  have hlt1 : d < 1 := lt_of_le_of_lt hle (by norm_num)
  have hsinpos : 0 < Real.sin (Real.arccos d) := by
    apply Real.sin_pos_of_pos_of_lt_pi
    · exact Real.arccos_pos.mpr hlt1
    · exact lt_of_le_of_lt (Real.arccos_le_pi_div_two.mpr h0) (half_lt_self Real.pi_pos)
  have hsinne : Real.sin (Real.arccos d) ≠ 0 := ne_of_gt hsinpos
  rw [habs]
  constructor
  · rw [Real.cos_arccos (by linarith) (by linarith), mul_div_assoc, div_self hsinne,
      mul_one, sub_self]
  · rw [div_self hsinne]

/-- C7: for nonzero quaternions, `slerp(q1, q2, 0)` is exactly the
normalization of `q1`, and `slerp(q1, q2, 1)` is the normalization of `q2`,
negated exactly when `dot(q1, q2) < 0` — covering both the near-parallel
linear branch and the general closed-form branch. -/
theorem C7_slerp_endpoints (q1 q2 : Quat) (h1 : quatNorm q1 ≠ 0) (h2 : quatNorm q2 ≠ 0) :
    slerp_quaternions q1 q2 0 = quatNormalize q1 ∧
    slerp_quaternions q1 q2 1 =
      (if quatDot q1 q2 < 0 then quatNeg (quatNormalize q2) else quatNormalize q2) := by
  have hn1 : quatNorm (quatNormalize q1) = 1 := quatNorm_normalize q1 h1
  have hn2 : quatNorm (quatNormalize q2) = 1 := quatNorm_normalize q2 h2
  constructor
  · by_cases hd : quatDot (quatNormalize q1) (quatNormalize q2) < 0
    · rw [slerp_unfold q1 q2 0 _ _ (if_pos hd).symm (if_pos hd).symm]
      by_cases hbig : (0.9995 : ℝ) < -(quatDot (quatNormalize q1) (quatNormalize q2))
      · rw [if_pos hbig, quat_lin_t0]
        exact quatNormalize_norm_one hn1
      · rw [if_neg hbig]
        simp only [mul_zero, Real.sin_zero, Real.cos_zero, zero_div, sub_zero]
        exact quat_comb_10 _ _
    · rw [slerp_unfold q1 q2 0 _ _ (if_neg hd).symm (if_neg hd).symm]
      by_cases hbig : (0.9995 : ℝ) < quatDot (quatNormalize q1) (quatNormalize q2)
      · rw [if_pos hbig, quat_lin_t0]
        exact quatNormalize_norm_one hn1
      · rw [if_neg hbig]
        simp only [mul_zero, Real.sin_zero, Real.cos_zero, zero_div, sub_zero]
        exact quat_comb_10 _ _
  · by_cases hd : quatDot (quatNormalize q1) (quatNormalize q2) < 0
    · rw [if_pos ((quatDot_lt_zero_iff q1 q2 h1 h2).mp hd)]
      rw [slerp_unfold q1 q2 1 _ _ (if_pos hd).symm (if_pos hd).symm]
      have h0 : (0 : ℝ) ≤ -(quatDot (quatNormalize q1) (quatNormalize q2)) :=
        le_of_lt (neg_pos.mpr hd)
      by_cases hbig : (0.9995 : ℝ) < -(quatDot (quatNormalize q1) (quatNormalize q2))
      · rw [if_pos hbig, quat_lin_t1]
        exact quatNormalize_norm_one (by rw [quatNorm_neg]; exact hn2)
      · have hle : -(quatDot (quatNormalize q1) (quatNormalize q2)) ≤ 0.9995 := not_lt.mp hbig
        rw [if_neg hbig]
        simp only [mul_one]
        rw [(slerp_general_s_one _ h0 hle).1, (slerp_general_s_one _ h0 hle).2]
        exact quat_comb_01 _ _
    · rw [if_neg fun hc => hd ((quatDot_lt_zero_iff q1 q2 h1 h2).mpr hc)]
      rw [slerp_unfold q1 q2 1 _ _ (if_neg hd).symm (if_neg hd).symm]
      have h0 : (0 : ℝ) ≤ quatDot (quatNormalize q1) (quatNormalize q2) := not_lt.mp hd
      by_cases hbig : (0.9995 : ℝ) < quatDot (quatNormalize q1) (quatNormalize q2)
      · rw [if_pos hbig, quat_lin_t1]
        exact quatNormalize_norm_one hn2
      · have hle : quatDot (quatNormalize q1) (quatNormalize q2) ≤ 0.9995 := not_lt.mp hbig
        rw [if_neg hbig]
        simp only [mul_one]
        rw [(slerp_general_s_one _ h0 hle).1, (slerp_general_s_one _ h0 hle).2]
        exact quat_comb_01 _ _

/-- C7 witness: the endpoint property at the identity quaternion. -/
theorem C7_witness :
    quatNorm qId ≠ 0 ∧
    (slerp_quaternions qId qId 0 = quatNormalize qId ∧
     slerp_quaternions qId qId 1 =
       (if quatDot qId qId < 0 then quatNeg (quatNormalize qId) else quatNormalize qId)) := by
  have hnz : quatNorm qId ≠ 0 := by
    rw [quatNorm_qId]
    norm_num
  exact ⟨hnz, C7_slerp_endpoints qId qId hnz hnz⟩

theorem searchsorted_c4_zero : searchsortedLeft [(0 : ℝ), 10, 20] 0 = 0 := by
  rw [searchsortedLeft, List.takeWhile_cons, decide_eq_false (by norm_num : ¬(0 : ℝ) < 0)]
  rfl

theorem searchsorted_c4_ten : searchsortedLeft [(0 : ℝ), 10, 20] 10 = 1 := by
  rw [searchsortedLeft, List.takeWhile_cons, decide_eq_true (by norm_num : (0 : ℝ) < 10),
    List.takeWhile_cons, decide_eq_false (by norm_num : ¬(10 : ℝ) < 10)]
  rfl

theorem searchsorted_c4_twenty : searchsortedLeft [(0 : ℝ), 10, 20] 20 = 2 := by
  rw [searchsortedLeft, List.takeWhile_cons, decide_eq_true (by norm_num : (0 : ℝ) < 20),
    List.takeWhile_cons, decide_eq_true (by norm_num : (10 : ℝ) < 20),
    List.takeWhile_cons, decide_eq_false (by norm_num : ¬(20 : ℝ) < 20)]
  rfl

theorem slerp_qId_qId (t : ℝ) : slerp_quaternions qId qId t = qId := by
  have hq : quatNormalize qId = qId := quatNormalize_norm_one quatNorm_qId
  have hd : quatDot (quatNormalize qId) (quatNormalize qId) = 1 := by
    rw [hq]
    norm_num [quatDot, qId]
  rw [slerp_unfold qId qId t (quatDot (quatNormalize qId) (quatNormalize qId))
    (quatNormalize qId) (if_neg (by rw [hd]; norm_num)).symm (if_neg (by rw [hd]; norm_num)).symm]
  rw [hd, if_pos (by norm_num : (0.9995 : ℝ) < 1), hq]
  have hlin : quatAdd qId (quatSmul t (quatSub qId qId)) = qId := by
    simp [quatAdd, quatSmul, quatSub, qId]
  rw [hlin, hq]

theorem interp_c4_x_zero : interp1dAt [(0 : ℝ), 10, 20] [(0 : ℝ), 1, 2] 0 = 0 := by
  rw [interp1dAt, searchsorted_c4_zero]
  norm_num [List.getD_cons_zero, List.getD_cons_succ]

theorem interp_c4_x_ten : interp1dAt [(0 : ℝ), 10, 20] [(0 : ℝ), 1, 2] 10 = 1 := by
  rw [interp1dAt, searchsorted_c4_ten]
  norm_num [List.getD_cons_zero, List.getD_cons_succ]

theorem interp_c4_x_twenty : interp1dAt [(0 : ℝ), 10, 20] [(0 : ℝ), 1, 2] 20 = 2 := by
  rw [interp1dAt, searchsorted_c4_twenty]
  norm_num [List.getD_cons_zero, List.getD_cons_succ]

theorem interp_c4_zeros (t : ℝ) : interp1dAt [(0 : ℝ), 10, 20] [(0 : ℝ), 0, 0] t = 0 := by
  have hv : ∀ i : ℕ, ([(0 : ℝ), 0, 0])[i]?.getD 0 = 0 := by
    intro i
    match i with
    | 0 => rfl
    | 1 => rfl
    | 2 => rfl
    | n + 3 => rfl
  have hv' : ∀ (i : ℕ) (h : i < 3), ([(0 : ℝ), 0, 0])[i] = 0 := by
    intro i h
    interval_cases i <;> rfl
  rw [interp1dAt]
  simp [hv, hv']

theorem orient_c4_zero : interpOrientationAt [(0 : ℝ), 10, 20] [qId, qId, qId] 0 = qId := by
  rw [interpOrientationAt,
    if_pos (by norm_num [List.getD_cons_zero] : (0 : ℝ) ≤ ([(0 : ℝ), 10, 20]).getD 0 0)]
  rfl

theorem orient_c4_ten : interpOrientationAt [(0 : ℝ), 10, 20] [qId, qId, qId] 10 = qId := by
  rw [interpOrientationAt,
    if_neg (by norm_num [List.getD_cons_zero] : ¬(10 : ℝ) ≤ ([(0 : ℝ), 10, 20]).getD 0 0),
    if_neg (by
      norm_num [List.getD_cons_zero, List.getD_cons_succ] :
      ¬(10 : ℝ) ≥ ([(0 : ℝ), 10, 20]).getD (([(0 : ℝ), 10, 20]).length - 1) 0),
    searchsorted_c4_ten]
  exact slerp_qId_qId _

theorem orient_c4_twenty : interpOrientationAt [(0 : ℝ), 10, 20] [qId, qId, qId] 20 = qId := by
  rw [interpOrientationAt,
    if_neg (by norm_num [List.getD_cons_zero] : ¬(20 : ℝ) ≤ ([(0 : ℝ), 10, 20]).getD 0 0),
    if_pos (by
      norm_num [List.getD_cons_zero, List.getD_cons_succ] :
      (20 : ℝ) ≥ ([(0 : ℝ), 10, 20]).getD (([(0 : ℝ), 10, 20]).length - 1) 0)]
  rfl

theorem c4_interp :
    interpolate_odometry_data c4times c4times c4pos c4quats = some (c4pos, c4quats) := by
  show interpolate_odometry_data [(0 : ℝ), 10, 20] [(0 : ℝ), 10, 20]
      [⟨0, 0, 0⟩, ⟨1, 0, 0⟩, ⟨2, 0, 0⟩] [qId, qId, qId] =
    some ([(⟨0, 0, 0⟩ : Vec3), ⟨1, 0, 0⟩, ⟨2, 0, 0⟩], [qId, qId, qId])
  rw [interpolate_odometry_data, if_neg (by norm_num)]
  have hmin : listMin [(0 : ℝ), 10, 20] = 0 := by
    rw [listMin]
    norm_num [min_def]
  have hmax : listMax [(0 : ℝ), 10, 20] = 20 := by
    rw [listMax]
    norm_num [max_def]
  rw [if_neg (by rw [hmin, hmax]; norm_num)]
  simp only [List.map_cons, List.map_nil, interp_c4_x_zero, interp_c4_x_ten, interp_c4_x_twenty,
    interp_c4_zeros, orient_c4_zero, orient_c4_ten, orient_c4_twenty]

theorem create_c4 (a : ℝ) :
    create_transform_matrix ⟨a, 0, 0⟩ qId none = homogeneousMatrix 1 ⟨a, 0, 0⟩ := by
  show homogeneousMatrix (quaternion_to_rotation_matrix qId) ⟨a, 0, 0⟩ = _
  rw [quaternion_to_rotation_matrix_qId]

theorem applyMat4_homog_one (v : Vec3) :
    applyMat4 (homogeneousMatrix 1 v) ⟨0, 0, 0⟩ = v := by
  simp [applyMat4, homogeneousMatrix, Matrix.one_apply]

theorem c4_global_eval :
    convert_points TransformMode.modeGlobal (some (c4times, c4pos, c4quats)) c4times c4batches =
      [⟨0, 0, 0⟩, ⟨1, 0, 0⟩, ⟨2, 0, 0⟩] := by
  simp only [convert_points, c4_interp, true_or, or_true, if_true]
  rw [show List.range c4batches.length = [0, 1, 2] from rfl]
  simp only [List.flatMap_cons, List.flatMap_nil, List.append_nil]
  simp only [show c4pos.getD 0 ⟨0, 0, 0⟩ = ⟨0, 0, 0⟩ from rfl,
    show c4pos.getD 1 ⟨0, 0, 0⟩ = ⟨1, 0, 0⟩ from rfl,
    show c4pos.getD 2 ⟨0, 0, 0⟩ = ⟨2, 0, 0⟩ from rfl,
    show c4quats.getD 0 quatZero = qId from rfl,
    show c4quats.getD 1 quatZero = qId from rfl,
    show c4quats.getD 2 quatZero = qId from rfl,
    show c4batches.getD 0 [] = [(⟨0, 0, 0⟩ : Vec3)] from rfl,
    show c4batches.getD 1 [] = [(⟨0, 0, 0⟩ : Vec3)] from rfl,
    show c4batches.getD 2 [] = [(⟨0, 0, 0⟩ : Vec3)] from rfl]
  simp only [create_c4, List.map_cons, List.map_nil, applyMat4_homog_one]
  rfl

theorem applyMat4_one (p : Vec3) : applyMat4 1 p = p := by
  simp [applyMat4, Matrix.one_apply]

theorem c4_local_eval :
    convert_points TransformMode.modeLocal (some (c4times, c4pos, c4quats)) c4times c4batches =
      [⟨0, 0, 0⟩, ⟨1, 0, 0⟩, ⟨2, 0, 0⟩] := by
  simp only [convert_points, c4_interp, true_or, or_true, if_true]
  rw [show List.range c4batches.length = [0, 1, 2] from rfl]
  simp only [List.flatMap_cons, List.flatMap_nil, List.append_nil]
  simp only [show c4pos.getD 0 ⟨0, 0, 0⟩ = ⟨0, 0, 0⟩ from rfl,
    show c4pos.getD 1 ⟨0, 0, 0⟩ = ⟨1, 0, 0⟩ from rfl,
    show c4pos.getD 2 ⟨0, 0, 0⟩ = ⟨2, 0, 0⟩ from rfl,
    show c4quats.getD 0 quatZero = qId from rfl,
    show c4quats.getD 1 quatZero = qId from rfl,
    show c4quats.getD 2 quatZero = qId from rfl,
    show c4batches.getD 0 [] = [(⟨0, 0, 0⟩ : Vec3)] from rfl,
    show c4batches.getD 1 [] = [(⟨0, 0, 0⟩ : Vec3)] from rfl,
    show c4batches.getD 2 [] = [(⟨0, 0, 0⟩ : Vec3)] from rfl]
  simp only [create_c4, homogeneousMatrix_one_zero, inv_one, one_mul, List.map_cons,
    List.map_nil, applyMat4_homog_one, applyMat4_one]
  rfl

/-- C4 (counterexample): in the end-to-end scenario the claim "in transform
mode local every output point equals (0,0,0)" is false: the second output
point is `(1,0,0)`. -/
theorem C4_counterexample :
    ¬(∀ p ∈ convert_points TransformMode.modeLocal (some (c4times, c4pos, c4quats)) c4times
        c4batches, p = (⟨0, 0, 0⟩ : Vec3)) := by
  intro h
  have hmem : (⟨1, 0, 0⟩ : Vec3) ∈
      convert_points TransformMode.modeLocal (some (c4times, c4pos, c4quats)) c4times c4batches := by
    rw [c4_local_eval]
    simp
  have h1 : (1 : ℝ) = 0 := congrArg Vec3.x (h _ hmem)
  norm_num at h1

/-- C4 (amended): in the 3-pose scenario, mode `global` outputs exactly the
trajectory positions `[(0,0,0),(1,0,0),(2,0,0)]`; mode `local` outputs the
same list as well — since the first pose is at the origin with identity
orientation, the reference transform is the identity — not `(0,0,0)` for
every point. -/
theorem C4_end_to_end_scenario :
    convert_points TransformMode.modeGlobal (some (c4times, c4pos, c4quats)) c4times c4batches =
      [⟨0, 0, 0⟩, ⟨1, 0, 0⟩, ⟨2, 0, 0⟩] ∧
    convert_points TransformMode.modeLocal (some (c4times, c4pos, c4quats)) c4times c4batches =
      [⟨0, 0, 0⟩, ⟨1, 0, 0⟩, ⟨2, 0, 0⟩] :=
  ⟨c4_global_eval, c4_local_eval⟩

end Bag2Las
